import Mathlib

/-!
Shio / Shoji entity viewer: attribute extraction and form rendering.

A shallow embedding of

* `ShojiWindow::MapAttributesToMessage` and `ShojiWindow::GetViewTemplateForType`
  (`src/app/ShojiWindow.cpp`),
* `ShioDynamicView::Populate` and `ShioDynamicView::CreateDataView`
  (`src/app/ShioDynamicView.cpp`),

together with the part of the Haiku `BMessage` / `BNode` interface these functions call.
Status codes are `Int`, type codes and bytes are `Nat`, names are `String`.
-/

namespace Shio

/-! ## Haiku constants (`Errors.h`, `TypeConstants.h`, `Control.h`) -/

def B_OK : Int := 0
def B_ERROR : Int := -1
def B_GENERAL_ERROR_BASE : Int := -2147483648
def B_BAD_INDEX : Int := B_GENERAL_ERROR_BASE + 3
def B_BAD_TYPE : Int := B_GENERAL_ERROR_BASE + 4
def B_BAD_VALUE : Int := B_GENERAL_ERROR_BASE + 5
def B_NAME_NOT_FOUND : Int := B_GENERAL_ERROR_BASE + 7
def B_STORAGE_ERROR_BASE : Int := B_GENERAL_ERROR_BASE + 0x6000
def B_ENTRY_NOT_FOUND : Int := B_STORAGE_ERROR_BASE + 3

/-- Type code `'ANYT'`. -/
def B_ANY_TYPE : Nat := 0x414E5954
/-- Type code `'BOOL'`. -/
def B_BOOL_TYPE : Nat := 0x424F4F4C
/-- Type code `'DBLE'`. -/
def B_DOUBLE_TYPE : Nat := 0x44424C45
/-- Type code `'FLOT'`. -/
def B_FLOAT_TYPE : Nat := 0x464C4F54
/-- Type code `'BYTE'`. -/
def B_INT8_TYPE : Nat := 0x42595445
/-- Type code `'SHRT'`. -/
def B_INT16_TYPE : Nat := 0x53485254
/-- Type code `'LONG'`. -/
def B_INT32_TYPE : Nat := 0x4C4F4E47
/-- Type code `'CSTR'`. -/
def B_STRING_TYPE : Nat := 0x43535452

def B_CONTROL_OFF : Nat := 0
def B_CONTROL_ON : Nat := 1

/-! ## `BMessage` -/

/-- One named field of a `BMessage`: a type code and the value instances stored under the
name, each a run of bytes. `fixedSize` is the field's `FIELD_FLAG_FIXED_SIZE`. -/
structure Field where
  name : String
  type : Nat
  fixedSize : Bool
  items : List (List Nat)
deriving DecidableEq, Repr

/-- A `BMessage` is its fields in the order they were added. -/
abbrev BMessage := List Field

deriving instance DecidableEq for Except

/-- Field lookup by name (`BMessage::_FindField` without the type check). -/
def findField (msg : BMessage) (name : String) : Option Field :=
  msg.find? (fun f => decide (f.name = name))

/-- The function `BMessage::FindData(name, type, index, &data, &numBytes)`. -/
def FindData (msg : BMessage) (name : String) (type : Nat) (index : Nat) :
    Except Int (List Nat) :=
  match findField msg name with
  | none => .error B_NAME_NOT_FOUND
  | some f =>
    if type ≠ B_ANY_TYPE ∧ f.type ≠ type then .error B_BAD_TYPE
    else
      match f.items.get? index with
      | none => .error B_BAD_INDEX
      | some d => .ok d

/-- The function `bool BMessage::FindBool(name, index)`: the stored flag, `false` when the
lookup fails. A stored flag is true when its first byte is non-zero. -/
def FindBool (msg : BMessage) (name : String) (index : Nat) : Bool :=
  match FindData msg name B_BOOL_TYPE index with
  | .ok d => decide (d.headD 0 ≠ 0)
  | .error _ => false

/-- Append one value instance to the first field called `name`. -/
def appendItem (name : String) (data : List Nat) : BMessage → BMessage
  | [] => []
  | f :: rest =>
    if f.name = name then { f with items := f.items ++ [data] } :: rest
    else f :: appendItem name data rest

/-- The function `BMessage::AddData(name, type, data, numBytes)` with the default
`isFixedSize = true`; `numBytes` is the length of `data`. Returns the status and the
message afterwards. -/
def AddData (msg : BMessage) (name : String) (type : Nat) (data : List Nat) :
    Int × BMessage :=
  if data.length = 0 then (B_BAD_VALUE, msg)
  else
    match findField msg name with
    | none => (B_OK, msg ++ [⟨name, type, true, [data]⟩])
    | some f =>
      if type ≠ B_ANY_TYPE ∧ f.type ≠ type then (B_BAD_TYPE, msg)
      else if f.fixedSize ∧ f.items ≠ [] ∧ (f.items.headD []).length ≠ data.length then
        (B_BAD_VALUE, msg)
      else (B_OK, appendItem name data msg)

/-- The function `BMessage::CountNames(B_ANY_TYPE)`. -/
def CountNames (msg : BMessage) : Nat := msg.length

/-- The function `BMessage::GetInfo(B_ANY_TYPE, index, &name, &type, &count)`. -/
def GetInfo (msg : BMessage) (index : Nat) : Except Int (String × Nat × Nat) :=
  match msg.get? index with
  | none => .error B_BAD_INDEX
  | some f => .ok (f.name, f.type, f.items.length)

/-! ## The attribute source (`BNode`) -/

/-- Outcome of `BNode::ReadAttr`: a negative status, or the bytes read. -/
inductive ReadOutcome where
  | failed (status : Int)
  | bytes (data : List Nat)
deriving DecidableEq, Repr

/-- The `ssize_t` that `ReadAttr` returns. -/
def ReadOutcome.bytesRead : ReadOutcome → Int
  | .failed s => s
  | .bytes d => d.length

/-- The buffer contents after `ReadAttr`. -/
def ReadOutcome.payload : ReadOutcome → List Nat
  | .failed _ => []
  | .bytes d => d

/-- One attribute as the node presents it: the name `GetNextAttrName` yields, the status
and `attr_info` of `GetAttrInfo`, and the outcome of `ReadAttr`. -/
structure Attr where
  name : String
  infoStatus : Int
  type : Nat
  size : Nat
  read : ReadOutcome
deriving DecidableEq, Repr

/-- A `BNode` built from an `entry_ref`: the status of `InitCheck`, the attributes
`GetNextAttrName` enumerates with `B_OK`, and the status that ends the enumeration
(`B_ENTRY_NOT_FOUND` at the regular end). -/
structure Node where
  initStatus : Int
  attrs : List Attr
  endStatus : Int
deriving DecidableEq, Repr

/-- A call of `ShowUserError(title, message, errorCode)`. -/
structure Alert where
  title : String
  message : String
  errorCode : Int
deriving DecidableEq, Repr

/-! ## `ShojiWindow::MapAttributesToMessage` -/

/-- The function `BString::StartsWith`. -/
def StartsWith (s p : String) : Bool := p.data.isPrefixOf s.data

/-- The test of line 98: a known internal / system attribute name. -/
def isReserved (attrName : String) : Bool :=
  StartsWith attrName "BEOS:" || StartsWith attrName "be:" || StartsWith attrName "_trk/"

/-- State at the return of `MapAttributesToMessage`: the returned status, the output
message, the local `attrCount`, and the alert shown, if any. -/
structure MapResult where
  status : Int
  outAttrMsg : BMessage
  attrCount : Nat
  alert : Option Alert
deriving DecidableEq, Repr

/-- The `while` loop of `MapAttributesToMessage` (lines 94-122) and the code after it
(lines 124-129), run on the attributes still to be enumerated. -/
def mapLoop (mimeAttrInfo : BMessage) (endStatus : Int) :
    List Attr → Nat → BMessage → MapResult
  | [], attrCount, outAttrMsg =>
    let result := endStatus
    if result ≠ B_OK ∧ result ≠ B_ENTRY_NOT_FOUND then
      ⟨result, outAttrMsg, attrCount,
        some ⟨"Error opening file", "failed to read file attributes.", result⟩⟩
    else ⟨B_OK, outAttrMsg, attrCount, none⟩
  | a :: rest, attrCount, outAttrMsg =>
    if isReserved a.name then mapLoop mimeAttrInfo endStatus rest attrCount outAttrMsg
    else
      let result := a.infoStatus
      if result ≠ B_OK then
        ⟨result, outAttrMsg, attrCount,
          some ⟨"Error opening file",
            "Encountered an error reading attribute info from file!", result⟩⟩
      else if ! FindBool mimeAttrInfo "attr:viewable" attrCount then
        mapLoop mimeAttrInfo endStatus rest attrCount outAttrMsg
      else if a.read.bytesRead ≤ 0 then
        ⟨result, outAttrMsg, attrCount,
          some ⟨"Error opening file", "failed to read attribute value from file.", result⟩⟩
      else
        mapLoop mimeAttrInfo endStatus rest (attrCount + 1)
          (AddData outAttrMsg a.name a.type a.read.payload).2

/-- The function `ShojiWindow::MapAttributesToMessage(ref, mimeAttrInfo, outAttrMsg)`. -/
def MapAttributesToMessage (node : Node) (mimeAttrInfo : BMessage) (outAttrMsg : BMessage) :
    MapResult :=
  let result := node.initStatus
  if result ≠ B_OK then ⟨result, outAttrMsg, 0, none⟩
  else mapLoop mimeAttrInfo node.endStatus node.attrs 0 outAttrMsg

/-! ## `ShojiWindow::GetViewTemplateForType` -/

/-- The two view classes `GetViewTemplateForType` instantiates. -/
inductive ShojiView where
  | ShojiTemplateView (mimeType : String)
  | ShojiGenericFormView
deriving DecidableEq, Repr

/-- State at the return of `GetViewTemplateForType`: the returned pointer (`none` is
`NULL`) and the alert shown, if any. -/
structure ResolveResult where
  view : Option ShojiView
  alert : Option Alert
deriving DecidableEq, Repr

/-- The function `ShojiWindow::GetViewTemplateForType(mimeType)`. The virtual
`ShojiView::Initialize` of the two view classes is the parameter `Initialize`. -/
def GetViewTemplateForType (Initialize : ShojiView → Int) (mimeType : String) :
    ResolveResult :=
  let view := ShojiView.ShojiTemplateView mimeType
  let status := Initialize view
  let fallback : ShojiView × Int :=
    if status = B_ENTRY_NOT_FOUND then
      (ShojiView.ShojiGenericFormView, Initialize ShojiView.ShojiGenericFormView)
    else (view, status)
  if fallback.2 ≠ B_OK then
    ⟨none, some ⟨"Error", "Failed to set up view.", fallback.2⟩⟩
  else ⟨some fallback.1, none⟩

/-! ## `ShioDynamicView::CreateDataView` -/

/-- The control `CreateDataView` puts into the container: a `BCheckBox(label, ...)` with
the value given to `SetValue`, or a `BTextControl(label, text, ...)`. -/
inductive Control where
  | BCheckBox (label : String) (value : Nat)
  | BTextControl (label : String) (text : String)
deriving DecidableEq, Repr

/-- The view `CreateDataView` returns: the container, by its name, and the control in it. -/
structure DataView where
  containerName : String
  dataView : Control
deriving DecidableEq, Repr

/-- Text that `BString::operator<<` appends for a `double` and for a `float` stored at the
given bytes. Floating point is outside the embedding, so both are parameters. -/
structure FloatText where
  ofDouble : List Nat → String
  ofFloat : List Nat → String

/-- Little-endian load of `width` bytes. Bytes behind the end of the payload are outside
the embedding and read as zero. -/
def loadUnsigned : Nat → List Nat → Nat
  | 0, _ => 0
  | _ + 1, [] => 0
  | width + 1, b :: bs => b % 256 + 256 * loadUnsigned width bs

/-- Load of a signed integer of `width` bytes (`*reinterpret_cast<const intN*>(data)`). -/
def loadSigned (width : Nat) (bytes : List Nat) : Int :=
  let v := loadUnsigned width bytes
  if v < 2 ^ (8 * width - 1) then (v : Int) else (v : Int) - 2 ^ (8 * width)

/-- A UTF-8 continuation byte (`10xxxxxx`). -/
def isContinuation (b : Nat) : Bool := decide (0x80 ≤ b ∧ b < 0xC0)

/-- The replacement character U+FFFD. -/
def replacementChar : Char := Char.ofNat 0xFFFD

/-- Decoding of the UTF-8 sequence at the head of `bytes`: the character and the number of
bytes it takes. A byte that does not start a well-formed sequence (a stray continuation
byte, a truncated or overlong sequence, a surrogate, a value above U+10FFFF) has no
counterpart in `String`; it is taken alone and gives U+FFFD. -/
def decodeOne : List Nat → Option (Char × Nat)
  | [] => none
  | b0 :: rest =>
    if b0 < 0x80 then some (Char.ofNat b0, 1)
    else if 0xC2 ≤ b0 ∧ b0 < 0xE0 then
      match rest with
      | b1 :: _ =>
        if isContinuation b1 then some (Char.ofNat ((b0 - 0xC0) * 0x40 + (b1 - 0x80)), 2)
        else some (replacementChar, 1)
      | [] => some (replacementChar, 1)
    else if 0xE0 ≤ b0 ∧ b0 < 0xF0 then
      match rest with
      | b1 :: b2 :: _ =>
        let cp := (b0 - 0xE0) * 0x1000 + (b1 - 0x80) * 0x40 + (b2 - 0x80)
        if isContinuation b1 ∧ isContinuation b2 ∧ 0x800 ≤ cp ∧ ¬ (0xD800 ≤ cp ∧ cp < 0xE000)
        then some (Char.ofNat cp, 3)
        else some (replacementChar, 1)
      | _ => some (replacementChar, 1)
    else if 0xF0 ≤ b0 ∧ b0 < 0xF5 then
      match rest with
      | b1 :: b2 :: b3 :: _ =>
        let cp := (b0 - 0xF0) * 0x40000 + (b1 - 0x80) * 0x1000 + (b2 - 0x80) * 0x40 + (b3 - 0x80)
        if isContinuation b1 ∧ isContinuation b2 ∧ isContinuation b3 ∧ 0x10000 ≤ cp ∧
            cp < 0x110000
        then some (Char.ofNat cp, 4)
        else some (replacementChar, 1)
      | _ => some (replacementChar, 1)
    else some (replacementChar, 1)

/-- UTF-8 decoding of `bytes`; every step takes at least one byte, so `steps` equal to the
number of bytes decodes all of them. -/
def utf8DecodeSteps : Nat → List Nat → List Char
  | 0, _ => []
  | steps + 1, bytes =>
    match decodeOne bytes with
    | none => []
    | some (c, used) => c :: utf8DecodeSteps steps (bytes.drop used)

/-- The text of a UTF-8 byte string. -/
def utf8Decode (bytes : List Nat) : String :=
  String.mk (utf8DecodeSteps bytes.length bytes)

/-- The C string at the given bytes: the bytes up to the first NUL, read as UTF-8 (the
encoding of `BString` and `BTextControl`). -/
def cstr (bytes : List Nat) : String :=
  utf8Decode ((bytes.map (fun b => b % 256)).takeWhile (fun b => decide (b ≠ 0)))

/-- The label `switch (typeCode)` jumps to in `CreateDataView`. -/
inductive CaseLabel where
  | caseBool | caseDouble | caseFloat | caseInt8 | caseInt16 | caseInt32 | caseString
  | caseDefault
deriving DecidableEq, Repr

/-- Selection of the label by `switch (typeCode)` (lines 102-149). -/
def switchLabel (typeCode : Nat) : CaseLabel :=
  if typeCode = B_BOOL_TYPE then .caseBool
  else if typeCode = B_DOUBLE_TYPE then .caseDouble
  else if typeCode = B_FLOAT_TYPE then .caseFloat
  else if typeCode = B_INT8_TYPE then .caseInt8
  else if typeCode = B_INT16_TYPE then .caseInt16
  else if typeCode = B_INT32_TYPE then .caseInt32
  else if typeCode = B_STRING_TYPE then .caseString
  else .caseDefault

/-- The text the `default` label puts into its text control (lines 150-151). -/
def unsupportedText (name : String) : String :=
  "(field type of attribute '" ++ name ++ "' is not supported)"

/-- The function `ShioDynamicView::CreateDataView(name, typeCode, data)`. The pointer
`data` is `none` for `NULL` and `some bytes` when it points at `bytes`. The result is
`none` when the call dereferences `NULL`. -/
def CreateDataView (fmt : FloatText) (name : String) (typeCode : Nat)
    (data : Option (List Nat)) : Option DataView :=
  let containerLabel := name ++ "_container"
  let dataView : Option Control :=
    match switchLabel typeCode with
    | .caseBool =>
      -- `bool state = reinterpret_cast<const bool*>(data);` converts the pointer itself
      let state : Bool := data.isSome
      some (.BCheckBox name (if state then B_CONTROL_ON else B_CONTROL_OFF))
    | .caseDouble => data.map (fun bytes => .BTextControl name (fmt.ofDouble bytes))
    | .caseFloat => data.map (fun bytes => .BTextControl name (fmt.ofFloat bytes))
    | .caseInt8 => data.map (fun bytes => .BTextControl name (toString (loadSigned 1 bytes)))
    | .caseInt16 => data.map (fun bytes => .BTextControl name (toString (loadSigned 2 bytes)))
    | .caseInt32 => data.map (fun bytes => .BTextControl name (toString (loadSigned 4 bytes)))
    | .caseString =>
      some (.BTextControl name (match data with
        | none => ""
        | some bytes => cstr bytes))
    | .caseDefault => some (.BTextControl name (unsupportedText name))
  dataView.map (fun c => ⟨containerLabel, c⟩)

/-- Widget kinds of a field descriptor (spec, section 3). -/
inductive WidgetKind where
  | Checkbox | TextField | ErrorPlaceholder
deriving DecidableEq, Repr

/-- The widget kind of a control built under a label of the switch: a `BCheckBox` is a
checkbox; a `BTextControl` is the error placeholder when the `default` label built it and
a text field when a `case` label did. -/
def widgetKind : CaseLabel → Control → WidgetKind
  | _, .BCheckBox _ _ => .Checkbox
  | .caseDefault, .BTextControl _ _ => .ErrorPlaceholder
  | _, .BTextControl _ _ => .TextField

/-- The widget kind of a control as the form shows it: a `BCheckBox` is a checkbox; a
`BTextControl` is the error placeholder (the "not supported" message field) when its text
is the message of lines 150-151 for its label, and a text field otherwise. -/
def controlKind : Control → WidgetKind
  | .BCheckBox _ _ => .Checkbox
  | .BTextControl label text =>
    if text = unsupportedText label then .ErrorPlaceholder else .TextField

/-- The type codes with a `case` label: Boolean, Double, Float, Int8, Int16, Int32, String. -/
def knownTypes : List Nat :=
  [B_BOOL_TYPE, B_DOUBLE_TYPE, B_FLOAT_TYPE, B_INT8_TYPE, B_INT16_TYPE, B_INT32_TYPE,
    B_STRING_TYPE]

/-- The dispatch table of the spec (section 4.2), written from its rows. -/
def dispatchTable (typeCode : Nat) : WidgetKind :=
  if typeCode = B_BOOL_TYPE then .Checkbox
  else if typeCode ∈ [B_DOUBLE_TYPE, B_FLOAT_TYPE, B_INT8_TYPE, B_INT16_TYPE, B_INT32_TYPE]
  then .TextField
  else if typeCode = B_STRING_TYPE then .TextField
  else .ErrorPlaceholder

/-! ## `ShioDynamicView::Populate` -/

/-- A `BAlert(title, text, "OK")` shown by `Populate`. -/
structure BAlert where
  title : String
  text : String
deriving DecidableEq, Repr

/-- State at the return of `Populate`: the returned status, the views added to the group
layout (in order), and the alert shown, if any. -/
structure PopulateResult where
  status : Int
  views : List DataView
  alert : Option BAlert
deriving DecidableEq, Repr

/-- The `for` loop of `Populate` (lines 48-75) over the indices still to visit, and the
return after it (line 77). The result is `none` when `CreateDataView` is. -/
def populateLoop (fmt : FloatText) (props : BMessage) :
    List Nat → List DataView → Option PopulateResult
  | [], views => some ⟨B_OK, views, none⟩
  | i :: rest, views =>
    match GetInfo props i with
    | .error _ => populateLoop fmt props rest views
    | .ok (name, type, countFieldItems) =>
      if countFieldItems ≠ 1 then
        some ⟨B_ERROR, views, some ⟨"Error setting up view",
          "Could not process message data " ++ name ++
            "\nMultiple items per field not supported."⟩⟩
      else
        match FindData props name type 0 with
        | .error _ =>
          some ⟨B_ERROR, views, some ⟨"Error setting up view", "Could not read data " ++ name⟩⟩
        | .ok data =>
          match CreateDataView fmt name type (some data) with
          | none => none
          | some propView => populateLoop fmt props rest (views ++ [propView])

/-- The function `ShioDynamicView::Populate(props)`, started on a layout that already
holds `views`. -/
def Populate (fmt : FloatText) (props : BMessage) (views : List DataView) :
    Option PopulateResult :=
  populateLoop fmt props (List.range (CountNames props)) views

/-- The view the loop body of `Populate` builds for a field that holds one value: the
call `CreateDataView(name, type, data)` of line 73 with `data` at the field's value. -/
def fieldView (fmt : FloatText) (g : Field) : Option DataView :=
  CreateDataView fmt g.name g.type (some (g.items.headD []))

/-- The attributes that are neither reserved nor non-viewable, written from the words of
the spec (section 4.1): each name is skipped when it starts with a reserved marker;
otherwise its visibility is the schema flag "attr:viewable" at the running count of
attributes accepted so far, and a viewable attribute is accepted. -/
def acceptedAttrs (schema : BMessage) : Nat → List Attr → List Attr
  | _, [] => []
  | accepted, a :: rest =>
    if isReserved a.name then acceptedAttrs schema accepted rest
    else if FindBool schema "attr:viewable" accepted then
      a :: acceptedAttrs schema (accepted + 1) rest
    else acceptedAttrs schema accepted rest

/-- The record entry `AddData` creates for an attribute. -/
def entryOf (a : Attr) : Field := ⟨a.name, a.type, true, [a.read.payload]⟩

/-! ## Sample data -/

/-- A schema whose first three positions are viewable. -/
def schemaAllViewable : BMessage :=
  [⟨"attr:viewable", B_BOOL_TYPE, true, [[1], [1], [1]]⟩]

/-- A schema whose position 0 is viewable and whose position 1 is not. -/
def schemaSecondHidden : BMessage :=
  [⟨"attr:viewable", B_BOOL_TYPE, true, [[1], [0], [1]]⟩]

/-- The attribute `Title` of type string with payload `Hello`. -/
def attrTitle : Attr := ⟨"Title", B_OK, B_STRING_TYPE, 6, .bytes [72, 101, 108, 108, 111, 0]⟩

/-- The attribute `Rating` of type int32 with value 5. -/
def attrRating : Attr := ⟨"Rating", B_OK, B_INT32_TYPE, 4, .bytes [5, 0, 0, 0]⟩

/-- A system attribute. -/
def attrIcon : Attr := ⟨"BEOS:icon", B_OK, 0x5649434E, 2, .bytes [1, 2]⟩

/-- The field "A" of type string holding the one value "x". -/
def fieldA : Field := ⟨"A", B_STRING_TYPE, true, [[120, 0]]⟩

/-- The field "Tags" of type string holding the two values "a" and "b". -/
def fieldTags : Field := ⟨"Tags", B_STRING_TYPE, true, [[97, 0], [98, 0]]⟩

/-- A message whose first field "A" holds one value and whose second field "Tags" holds
two. -/
def messageTags : BMessage := [fieldA, fieldTags]

/-- The field "Note" of type string holding the one value "x". -/
def fieldNote : Field := ⟨"Note", B_STRING_TYPE, true, [[120, 0]]⟩

/-- A float formatter used in examples. -/
def sampleFloatText : FloatText := ⟨fun _ => "0.00", fun _ => "0.00"⟩

/-! ## Template resolution -/

/-- C7: `GetViewTemplateForType` returns the specific template view when its
initialization succeeds; it returns the generic view only when the specific template
reported `B_ENTRY_NOT_FOUND` (and does so when the generic view then initializes); and it
returns `NULL` when the specific template fails with any other status, so the generic
fallback never masks a failure other than not-found. -/
theorem GetViewTemplateForType_resolution (Initialize : ShojiView → Int) (mimeType : String) :
    (Initialize (.ShojiTemplateView mimeType) = B_OK →
      (GetViewTemplateForType Initialize mimeType).view
        = some (.ShojiTemplateView mimeType)) ∧
    ((GetViewTemplateForType Initialize mimeType).view = some .ShojiGenericFormView →
      Initialize (.ShojiTemplateView mimeType) = B_ENTRY_NOT_FOUND) ∧
    (Initialize (.ShojiTemplateView mimeType) = B_ENTRY_NOT_FOUND →
      Initialize .ShojiGenericFormView = B_OK →
      (GetViewTemplateForType Initialize mimeType).view = some .ShojiGenericFormView) ∧
    (Initialize (.ShojiTemplateView mimeType) ≠ B_OK →
      Initialize (.ShojiTemplateView mimeType) ≠ B_ENTRY_NOT_FOUND →
      (GetViewTemplateForType Initialize mimeType).view = none) := by
  have hne : B_OK ≠ B_ENTRY_NOT_FOUND := by decide
  refine ⟨?_, ?_, ?_, ?_⟩
  · intro h
    simp [GetViewTemplateForType, h, hne]
  · intro h
    by_contra hnf
    by_cases hok : Initialize (.ShojiTemplateView mimeType) = B_OK
    · simp [GetViewTemplateForType, hok, hne] at h
    · simp [GetViewTemplateForType, hnf, hok] at h
  · intro h hg
    simp [GetViewTemplateForType, h, hg]
  · intro hok hnf
    simp [GetViewTemplateForType, hnf, hok]

/-! ## Rendering a field -/

theorem switchLabel_of_not_known (typeCode : Nat) (h : typeCode ∉ knownTypes) :
    switchLabel typeCode = .caseDefault := by
  simp only [knownTypes, List.mem_cons, List.mem_singleton, List.not_mem_nil, or_false,
    not_or] at h
  obtain ⟨h1, h2, h3, h4, h5, h6, h7⟩ := h
  simp [switchLabel, h1, h2, h3, h4, h5, h6, h7]

theorem CreateDataView_isSome (fmt : FloatText) (name : String) (typeCode : Nat)
    (payload : List Nat) :
    ∃ v, CreateDataView fmt name typeCode (some payload) = some v := by
  unfold CreateDataView
  cases switchLabel typeCode <;> simp

/-- C5: for every attribute name, every data pointer and every type code outside the
known set, `CreateDataView` does not fail: it returns the text control of the `default`
label (the error placeholder), whose text is the message
"field type of attribute '<name>' is not supported" for the attribute's name, set in
parentheses, and so contains that message and the name. -/
theorem CreateDataView_unknown_type (fmt : FloatText) (name : String) (typeCode : Nat)
    (data : Option (List Nat)) (h : typeCode ∉ knownTypes) :
    CreateDataView fmt name typeCode data
        = some ⟨name ++ "_container", .BTextControl name (unsupportedText name)⟩ ∧
      widgetKind (switchLabel typeCode) (.BTextControl name (unsupportedText name))
        = .ErrorPlaceholder ∧
      controlKind (.BTextControl name (unsupportedText name)) = .ErrorPlaceholder ∧
      dispatchTable typeCode = .ErrorPlaceholder ∧
      unsupportedText name
        = "(" ++ ("field type of attribute '" ++ name ++ "' is not supported") ++ ")" ∧
      ∃ before after, unsupportedText name = before ++ name ++ after := by
  have hl := switchLabel_of_not_known typeCode h
  refine ⟨?_, ?_, ?_, ?_, ?_, ?_⟩
  · simp [CreateDataView, hl]
  · simp [hl, widgetKind]
  · simp [controlKind]
  · simp only [knownTypes, List.mem_cons, List.mem_singleton, List.not_mem_nil, or_false,
      not_or] at h
    obtain ⟨h1, h2, h3, h4, h5, h6, h7⟩ := h
    simp [dispatchTable, h1, h2, h3, h4, h5, h6, h7]
  · simp only [unsupportedText, String.append_assoc]
    rfl
  · exact ⟨"(field type of attribute '", "' is not supported)", rfl⟩

theorem CreateDataView_unknown_type_witness :
    (0x5649434E : Nat) ∉ knownTypes ∧
    (CreateDataView sampleFloatText "icon" 0x5649434E none
        = some ⟨"icon" ++ "_container", .BTextControl "icon" (unsupportedText "icon")⟩ ∧
      widgetKind (switchLabel 0x5649434E) (.BTextControl "icon" (unsupportedText "icon"))
        = .ErrorPlaceholder ∧
      controlKind (.BTextControl "icon" (unsupportedText "icon")) = .ErrorPlaceholder ∧
      dispatchTable 0x5649434E = .ErrorPlaceholder ∧
      unsupportedText "icon"
        = "(" ++ ("field type of attribute '" ++ "icon" ++ "' is not supported") ++ ")" ∧
      ∃ before after, unsupportedText "icon" = before ++ "icon" ++ after) :=
  ⟨by decide, CreateDataView_unknown_type sampleFloatText "icon" 0x5649434E none (by decide)⟩

/-- C6 (the code departs from the claim): for a Boolean attribute the check box is set
from the pointer `data` converted to `bool`, not from the byte it points at, so it is on for
every payload; in particular it is on for the stored value `false` (byte 0). -/
theorem CreateDataView_bool_always_on :
    (∀ (fmt : FloatText) (name : String) (payload : List Nat),
      CreateDataView fmt name B_BOOL_TYPE (some payload)
        = some ⟨name ++ "_container", .BCheckBox name B_CONTROL_ON⟩) ∧
    CreateDataView sampleFloatText "flag" B_BOOL_TYPE (some [0])
      = some ⟨"flag_container", .BCheckBox "flag" 1⟩ := by
  constructor
  · intro fmt name payload
    simp [CreateDataView, switchLabel]
  · decide

/-! ## Attribute extraction -/

/-- C1 (the code departs from the claim): when `ReadAttr` fails, or reads zero bytes, for
a viewable attribute, `MapAttributesToMessage` shows the alert and returns `result`, which
still holds the `B_OK` of the preceding `GetAttrInfo`: the caller receives `B_OK`
together with the record filled so far (here the entry for `Title` only). -/
theorem MapAttributesToMessage_read_failure_returns_ok :
    MapAttributesToMessage
        ⟨B_OK, [attrTitle, ⟨"Rating", B_OK, B_INT32_TYPE, 4, .failed B_ERROR⟩],
          B_ENTRY_NOT_FOUND⟩ schemaAllViewable []
      = ⟨B_OK, [⟨"Title", B_STRING_TYPE, true, [[72, 101, 108, 108, 111, 0]]⟩], 1,
          some ⟨"Error opening file", "failed to read attribute value from file.", B_OK⟩⟩ ∧
    MapAttributesToMessage
        ⟨B_OK, [attrTitle, ⟨"Rating", B_OK, B_INT32_TYPE, 0, .bytes []⟩],
          B_ENTRY_NOT_FOUND⟩ schemaAllViewable []
      = ⟨B_OK, [⟨"Title", B_STRING_TYPE, true, [[72, 101, 108, 108, 111, 0]]⟩], 1,
          some ⟨"Error opening file", "failed to read attribute value from file.", B_OK⟩⟩ := by
  constructor <;> decide

theorem appendItem_names (name : String) (data : List Nat) (msg : BMessage) :
    (appendItem name data msg).map Field.name = msg.map Field.name := by
  induction msg with
  | nil => rfl
  | cons f rest ih =>
    unfold appendItem
    split
    · rfl
    · simp [ih]

theorem appendItem_length (name : String) (data : List Nat) (msg : BMessage) :
    (appendItem name data msg).length = msg.length := by
  have h := congrArg List.length (appendItem_names name data msg)
  simpa using h

/-- After `AddData` the field names are the old ones, with `name` added at the end when a
new field was created. -/
theorem AddData_names (msg : BMessage) (name : String) (type : Nat) (data : List Nat) :
    (AddData msg name type data).2.map Field.name = msg.map Field.name ∨
    (AddData msg name type data).2.map Field.name = msg.map Field.name ++ [name] := by
  unfold AddData
  split
  · exact Or.inl rfl
  · split
    · right
      simp
    · split
      · exact Or.inl rfl
      · split
        · exact Or.inl rfl
        · left
          exact appendItem_names name data msg

theorem AddData_length_le (msg : BMessage) (name : String) (type : Nat) (data : List Nat) :
    (AddData msg name type data).2.length ≤ msg.length + 1 := by
  rcases AddData_names msg name type data with h | h
  · have h2 := congrArg List.length h
    simp only [List.length_map] at h2
    omega
  · have h2 := congrArg List.length h
    simp only [List.length_map, List.length_append, List.length_singleton] at h2
    omega

theorem mapLoop_names_not_reserved (schema : BMessage) (endStatus : Int) (attrs : List Attr) :
    ∀ (attrCount : Nat) (out : BMessage),
      (∀ f ∈ out, isReserved f.name = false) →
      ∀ f ∈ (mapLoop schema endStatus attrs attrCount out).outAttrMsg,
        isReserved f.name = false := by
  induction attrs with
  | nil =>
    intro attrCount out hout
    unfold mapLoop
    simp only
    split <;> exact hout
  | cons a rest ih =>
    intro attrCount out hout
    unfold mapLoop
    simp only
    split
    · exact ih attrCount out hout
    · rename_i hres
      split
      · exact hout
      · split
        · exact ih attrCount out hout
        · split
          · exact hout
          · apply ih
            intro f hf
            have hname : f.name ∈ (AddData out a.name a.type a.read.payload).2.map Field.name :=
              List.mem_map_of_mem _ hf
            rcases AddData_names out a.name a.type a.read.payload with h | h
            · rw [h] at hname
              obtain ⟨g, hg, hgn⟩ := List.mem_map.mp hname
              rw [← hgn]
              exact hout g hg
            · rw [h] at hname
              rcases List.mem_append.mp hname with hm | hm
              · obtain ⟨g, hg, hgn⟩ := List.mem_map.mp hm
                rw [← hgn]
                exact hout g hg
              · simp only [List.mem_singleton] at hm
                rw [hm]
                simpa using hres

/-- C2: for every node and every schema, whatever its viewable flags, no field of the
record that `MapAttributesToMessage` builds from an empty output message has a name that
starts with "BEOS:", "be:" or "_trk/". -/
theorem MapAttributesToMessage_omits_reserved (node : Node) (schema : BMessage) :
    ∀ f ∈ (MapAttributesToMessage node schema []).outAttrMsg,
      StartsWith f.name "BEOS:" = false ∧ StartsWith f.name "be:" = false ∧
        StartsWith f.name "_trk/" = false := by
  intro f hf
  have key : isReserved f.name = false := by
    unfold MapAttributesToMessage at hf
    simp only at hf
    split at hf
    · simp at hf
    · exact mapLoop_names_not_reserved schema node.endStatus node.attrs 0 [] (by simp) f hf
  simpa [isReserved, Bool.or_eq_false_iff, and_assoc] using key

theorem MapAttributesToMessage_omits_reserved_witness :
    entryOf attrRating
        ∈ (MapAttributesToMessage ⟨B_OK, [attrTitle, attrIcon, attrRating], B_ENTRY_NOT_FOUND⟩
            schemaAllViewable []).outAttrMsg ∧
      (StartsWith (entryOf attrRating).name "BEOS:" = false ∧
        StartsWith (entryOf attrRating).name "be:" = false ∧
        StartsWith (entryOf attrRating).name "_trk/" = false) :=
  ⟨by decide,
    MapAttributesToMessage_omits_reserved
      ⟨B_OK, [attrTitle, attrIcon, attrRating], B_ENTRY_NOT_FOUND⟩ schemaAllViewable
      (entryOf attrRating) (by decide)⟩

theorem mapLoop_stuck (schema : BMessage) (endStatus : Int) (k : Nat)
    (hk : FindBool schema "attr:viewable" k = false) (attrs : List Attr) :
    ∀ out : BMessage,
      (mapLoop schema endStatus attrs k out).outAttrMsg = out ∧
      (mapLoop schema endStatus attrs k out).attrCount = k := by
  induction attrs with
  | nil =>
    intro out
    unfold mapLoop
    simp only
    split <;> exact ⟨rfl, rfl⟩
  | cons a rest ih =>
    intro out
    unfold mapLoop
    simp only
    split
    · exact ih out
    · split
      · exact ⟨rfl, rfl⟩
      · split
        · exact ih out
        · rename_i hv
          simp [hk] at hv

theorem mapLoop_count_bounded (schema : BMessage) (endStatus : Int) (k : Nat)
    (hk : FindBool schema "attr:viewable" k = false) (attrs : List Attr) :
    ∀ (attrCount : Nat) (out : BMessage), attrCount ≤ k →
      (mapLoop schema endStatus attrs attrCount out).attrCount ≤ k := by
  induction attrs with
  | nil =>
    intro attrCount out hle
    unfold mapLoop
    simp only
    split <;> exact hle
  | cons a rest ih =>
    intro attrCount out hle
    unfold mapLoop
    simp only
    split
    · exact ih attrCount out hle
    · split
      · exact hle
      · split
        · exact ih attrCount out hle
        · rename_i hv
          split
          · exact hle
          · apply ih
            rcases Nat.lt_or_ge attrCount k with hlt | hge
            · omega
            · have : attrCount = k := by omega
              subst this
              simp [hk] at hv

theorem mapLoop_length_le (schema : BMessage) (endStatus : Int) (attrs : List Attr) :
    ∀ (attrCount : Nat) (out : BMessage),
      (mapLoop schema endStatus attrs attrCount out).outAttrMsg.length + attrCount
        ≤ out.length + (mapLoop schema endStatus attrs attrCount out).attrCount := by
  induction attrs with
  | nil =>
    intro attrCount out
    unfold mapLoop
    simp only
    split <;> exact Nat.le_refl _
  | cons a rest ih =>
    intro attrCount out
    unfold mapLoop
    simp only
    split
    · exact ih attrCount out
    · split
      · exact Nat.le_refl _
      · split
        · exact ih attrCount out
        · split
          · exact Nat.le_refl _
          · have h1 := ih (attrCount + 1) (AddData out a.name a.type a.read.payload).2
            have h2 := AddData_length_le out a.name a.type a.read.payload
            omega

/-- C10: for every node and schema, if the schema flag "attr:viewable" at position `k` is
false or absent (`FindBool` yields `false`), then `MapAttributesToMessage` ends with
`attrCount ≤ k` and a record of at most `k` fields; and once the running count is `k`, the
loop leaves the record and the count unchanged whatever attributes remain. -/
theorem MapAttributesToMessage_count_bounded (node : Node) (schema : BMessage) (k : Nat)
    (hk : FindBool schema "attr:viewable" k = false) :
    (MapAttributesToMessage node schema []).attrCount ≤ k ∧
    (MapAttributesToMessage node schema []).outAttrMsg.length ≤ k ∧
    ∀ (attrs : List Attr) (out : BMessage),
      (mapLoop schema node.endStatus attrs k out).outAttrMsg = out ∧
      (mapLoop schema node.endStatus attrs k out).attrCount = k := by
  refine ⟨?_, ?_, fun attrs out => mapLoop_stuck schema node.endStatus k hk attrs out⟩
  · unfold MapAttributesToMessage
    simp only
    split
    · exact Nat.zero_le k
    · exact mapLoop_count_bounded schema node.endStatus k hk node.attrs 0 [] (Nat.zero_le k)
  · unfold MapAttributesToMessage
    simp only
    split
    · exact Nat.zero_le k
    · have h1 := mapLoop_count_bounded schema node.endStatus k hk node.attrs 0 []
        (Nat.zero_le k)
      have h2 := mapLoop_length_le schema node.endStatus node.attrs 0 []
      simp only [List.length_nil] at h2
      omega

theorem MapAttributesToMessage_count_bounded_witness :
    FindBool schemaSecondHidden "attr:viewable" 1 = false ∧
    ((MapAttributesToMessage ⟨B_OK, [attrTitle, attrIcon, attrRating], B_ENTRY_NOT_FOUND⟩
        schemaSecondHidden []).attrCount ≤ 1 ∧
    (MapAttributesToMessage ⟨B_OK, [attrTitle, attrIcon, attrRating], B_ENTRY_NOT_FOUND⟩
        schemaSecondHidden []).outAttrMsg.length ≤ 1 ∧
    ∀ (attrs : List Attr) (out : BMessage),
      (mapLoop schemaSecondHidden B_ENTRY_NOT_FOUND attrs 1 out).outAttrMsg = out ∧
      (mapLoop schemaSecondHidden B_ENTRY_NOT_FOUND attrs 1 out).attrCount = 1) :=
  ⟨by decide,
    MapAttributesToMessage_count_bounded
      ⟨B_OK, [attrTitle, attrIcon, attrRating], B_ENTRY_NOT_FOUND⟩ schemaSecondHidden 1
      (by decide)⟩

theorem findField_eq_none (msg : BMessage) (name : String)
    (h : name ∉ msg.map Field.name) : findField msg name = none := by
  unfold findField
  rw [List.find?_eq_none]
  intro f hf hfn
  apply h
  simp only [decide_eq_true_eq] at hfn
  rw [← hfn]
  exact List.mem_map_of_mem _ hf

/-- On a message without a field called `name`, `AddData` with a non-empty payload creates
the field at the end. -/
theorem AddData_new (msg : BMessage) (name : String) (type : Nat) (data : List Nat)
    (hname : name ∉ msg.map Field.name) (hdata : data ≠ []) :
    AddData msg name type data = (B_OK, msg ++ [⟨name, type, true, [data]⟩]) := by
  unfold AddData
  have hlen : data.length ≠ 0 := by
    intro h
    exact hdata (List.length_eq_zero.mp h)
  simp [hlen, findField_eq_none msg name hname]

theorem acceptedAttrs_sublist (schema : BMessage) (attrs : List Attr) :
    ∀ accepted : Nat, List.Sublist (acceptedAttrs schema accepted attrs) attrs := by
  induction attrs with
  | nil =>
    intro accepted
    simp [acceptedAttrs]
  | cons a rest ih =>
    intro accepted
    unfold acceptedAttrs
    split
    · exact (ih accepted).cons a
    · split
      · exact (ih (accepted + 1)).cons₂ a
      · exact (ih accepted).cons a

theorem mapLoop_accepts (schema : BMessage) (endStatus : Int) (attrs : List Attr) :
    ∀ (attrCount : Nat) (out : BMessage),
      (attrs.map Attr.name).Nodup →
      (∀ a ∈ attrs, a.name ∉ out.map Field.name) →
      (∀ a ∈ attrs, a.infoStatus = B_OK ∧ ∃ d, a.read = .bytes d ∧ d ≠ []) →
      (mapLoop schema endStatus attrs attrCount out).outAttrMsg
          = out ++ (acceptedAttrs schema attrCount attrs).map entryOf ∧
        (mapLoop schema endStatus attrs attrCount out).attrCount
          = attrCount + (acceptedAttrs schema attrCount attrs).length := by
  induction attrs with
  | nil =>
    intro attrCount out _ _ _
    unfold mapLoop
    simp only [acceptedAttrs]
    split <;> simp
  | cons a rest ih =>
    intro attrCount out hnd hfresh hread
    have hnd2 : (rest.map Attr.name).Nodup := by
      simp only [List.map_cons, List.nodup_cons] at hnd
      exact hnd.2
    have hanot : a.name ∉ rest.map Attr.name := by
      simp only [List.map_cons, List.nodup_cons] at hnd
      exact hnd.1
    have hfresh2 : ∀ b ∈ rest, b.name ∉ out.map Field.name :=
      fun b hb => hfresh b (List.mem_cons_of_mem _ hb)
    have hread2 : ∀ b ∈ rest, b.infoStatus = B_OK ∧ ∃ d, b.read = .bytes d ∧ d ≠ [] :=
      fun b hb => hread b (List.mem_cons_of_mem _ hb)
    obtain ⟨hinfo, d, hd, hdne⟩ := hread a (List.mem_cons_self _ _)
    have hbytes : ¬ a.read.bytesRead ≤ 0 := by
      rw [hd]
      simp only [ReadOutcome.bytesRead]
      have : 0 < d.length := List.length_pos.mpr hdne
      omega
    have hpay : a.read.payload = d := by rw [hd]; rfl
    unfold mapLoop acceptedAttrs
    simp only
    split
    · exact ih attrCount out hnd2 hfresh2 hread2
    · split
      · rename_i hbad
        exact absurd hinfo hbad
      · split
        · rename_i hv
          have hv2 : FindBool schema "attr:viewable" attrCount = false := by simpa using hv
          simp only [hv2, Bool.false_eq_true, if_false]
          exact ih attrCount out hnd2 hfresh2 hread2
        · rename_i hv
          have hv2 : FindBool schema "attr:viewable" attrCount = true := by simpa using hv
          simp only [hv2, if_true, if_neg hbytes]
          have hadd := AddData_new out a.name a.type a.read.payload
            (hfresh a (List.mem_cons_self _ _)) (by rw [hpay]; exact hdne)
          rw [hadd]
          have hfresh3 : ∀ b ∈ rest, b.name ∉ (out ++ [entryOf a]).map Field.name := by
            intro b hb hmem
            simp only [List.map_append, List.map_cons, List.map_nil, List.mem_append,
              List.mem_singleton] at hmem
            rcases hmem with hm | hm
            · exact hfresh2 b hb hm
            · apply hanot
              have : b.name = a.name := hm
              rw [← this]
              exact List.mem_map_of_mem _ hb
          have h := ih (attrCount + 1) (out ++ [entryOf a]) hnd2 hfresh3 hread2
          constructor
          · show (mapLoop schema endStatus rest (attrCount + 1) (out ++ [entryOf a])).outAttrMsg
              = out ++ List.map entryOf (a :: acceptedAttrs schema (attrCount + 1) rest)
            rw [h.1]
            simp
          · show (mapLoop schema endStatus rest (attrCount + 1) (out ++ [entryOf a])).attrCount
              = attrCount + (a :: acceptedAttrs schema (attrCount + 1) rest).length
            rw [h.2]
            simp only [List.length_cons]
            omega

/-- C3: for every node that opens and whose attributes have unique names and readable,
non-empty payloads (whatever their type codes, so in particular for recognized ones), the
record that `MapAttributesToMessage` builds from an empty output message consists of one
single-valued entry for each attribute that is neither reserved nor non-viewable, in
enumeration order, where visibility is the schema flag at the running count of accepted
attributes. So the record has exactly as many entries as there are such attributes, the
running count ends at that number, and no name occurs twice. -/
theorem MapAttributesToMessage_record_size (node : Node) (schema : BMessage)
    (hinit : node.initStatus = B_OK)
    (hnames : (node.attrs.map Attr.name).Nodup)
    (hread : ∀ a ∈ node.attrs, a.infoStatus = B_OK ∧ ∃ d, a.read = .bytes d ∧ d ≠ []) :
    (MapAttributesToMessage node schema []).outAttrMsg.length
        = (acceptedAttrs schema 0 node.attrs).length ∧
      (MapAttributesToMessage node schema []).outAttrMsg
        = (acceptedAttrs schema 0 node.attrs).map entryOf ∧
      (MapAttributesToMessage node schema []).attrCount
        = (acceptedAttrs schema 0 node.attrs).length ∧
      ((MapAttributesToMessage node schema []).outAttrMsg.map Field.name).Nodup := by
  have hne : ¬ node.initStatus ≠ B_OK := by simp [hinit]
  have h := mapLoop_accepts schema node.endStatus node.attrs 0 [] hnames (by simp) hread
  have hout : (MapAttributesToMessage node schema []).outAttrMsg
      = (acceptedAttrs schema 0 node.attrs).map entryOf := by
    unfold MapAttributesToMessage
    simp only [if_neg hne]
    simpa using h.1
  have hcount : (MapAttributesToMessage node schema []).attrCount
      = (acceptedAttrs schema 0 node.attrs).length := by
    unfold MapAttributesToMessage
    simp only [if_neg hne]
    simpa using h.2
  refine ⟨?_, hout, hcount, ?_⟩
  · rw [hout, List.length_map]
  · rw [hout, List.map_map]
    have hsub := (acceptedAttrs_sublist schema node.attrs 0).map Attr.name
    have heq : (Field.name ∘ entryOf) = Attr.name := by
      funext a
      rfl
    rw [heq]
    exact hnames.sublist hsub

theorem MapAttributesToMessage_record_size_witness :
    ((⟨B_OK, [attrTitle, attrIcon, attrRating], B_ENTRY_NOT_FOUND⟩ : Node).initStatus = B_OK ∧
      ([attrTitle, attrIcon, attrRating].map Attr.name).Nodup) ∧
    ((MapAttributesToMessage ⟨B_OK, [attrTitle, attrIcon, attrRating], B_ENTRY_NOT_FOUND⟩
          schemaAllViewable []).outAttrMsg.length
        = (acceptedAttrs schemaAllViewable 0 [attrTitle, attrIcon, attrRating]).length ∧
      (MapAttributesToMessage ⟨B_OK, [attrTitle, attrIcon, attrRating], B_ENTRY_NOT_FOUND⟩
          schemaAllViewable []).outAttrMsg
        = (acceptedAttrs schemaAllViewable 0 [attrTitle, attrIcon, attrRating]).map entryOf ∧
      (MapAttributesToMessage ⟨B_OK, [attrTitle, attrIcon, attrRating], B_ENTRY_NOT_FOUND⟩
          schemaAllViewable []).attrCount
        = (acceptedAttrs schemaAllViewable 0 [attrTitle, attrIcon, attrRating]).length ∧
      ((MapAttributesToMessage ⟨B_OK, [attrTitle, attrIcon, attrRating], B_ENTRY_NOT_FOUND⟩
          schemaAllViewable []).outAttrMsg.map Field.name).Nodup) :=
  ⟨⟨rfl, by decide⟩,
    MapAttributesToMessage_record_size
      ⟨B_OK, [attrTitle, attrIcon, attrRating], B_ENTRY_NOT_FOUND⟩ schemaAllViewable rfl
      (by decide)
      (by
        intro a ha
        simp only [List.mem_cons, List.mem_singleton, List.not_mem_nil, or_false] at ha
        rcases ha with h | h | h <;> subst h
        · exact ⟨rfl, _, rfl, by decide⟩
        · exact ⟨rfl, _, rfl, by decide⟩
        · exact ⟨rfl, _, rfl, by decide⟩)⟩

/-! ## Building the generic form -/

theorem findField_of_get (props : BMessage) (hnd : (props.map Field.name).Nodup) :
    ∀ (i : Nat) (g : Field), props.get? i = some g → findField props g.name = some g := by
  induction props with
  | nil =>
    intro i g h
    simp at h
  | cons f rest ih =>
    intro i g h
    simp only [List.map_cons, List.nodup_cons] at hnd
    cases i with
    | zero =>
      simp only [List.get?_cons_zero, Option.some.injEq] at h
      subst h
      simp [findField]
    | succ j =>
      simp only [List.get?_cons_succ] at h
      have hmem : g ∈ rest := List.get?_mem h
      have hne : f.name ≠ g.name := by
        intro heq
        apply hnd.1
        rw [heq]
        exact List.mem_map_of_mem _ hmem
      have := ih hnd.2 j g h
      unfold findField at this ⊢
      simp [List.find?_cons, hne, this]

/-- One pass of the loop body of `Populate` over indices whose fields hold exactly one
value adds one view per index and goes on with the remaining indices. -/
theorem populateLoop_single (fmt : FloatText) (props : BMessage)
    (hnd : (props.map Field.name).Nodup) (is : List Nat) :
    ∀ (rest : List Nat) (views : List DataView),
      (∀ i ∈ is, ∃ g, props.get? i = some g ∧ g.items.length = 1) →
      ∃ vs : List DataView, vs.length = is.length ∧
        vs.map some = is.map (fun i => (props.get? i).bind (fieldView fmt)) ∧
        populateLoop fmt props (is ++ rest) views
          = populateLoop fmt props rest (views ++ vs) := by
  induction is with
  | nil =>
    intro rest views _
    exact ⟨[], rfl, rfl, by simp⟩
  | cons i is ih =>
    intro rest views h
    obtain ⟨g, hg, hone⟩ := h i (List.mem_cons_self _ _)
    have hfind := findField_of_get props hnd i g hg
    obtain ⟨d, hd⟩ : ∃ d, g.items.get? 0 = some d := by
      cases hitems : g.items with
      | nil => simp [hitems] at hone
      | cons d ds => exact ⟨d, rfl⟩
    obtain ⟨v, hv⟩ := CreateDataView_isSome fmt g.name g.type d
    obtain ⟨vs, hlen, hmap, hvs⟩ := ih rest (views ++ [v])
      (fun j hj => h j (List.mem_cons_of_mem _ hj))
    have hview : fieldView fmt g = some v := by
      unfold fieldView
      have hhead : g.items.headD [] = d := by
        cases hitems : g.items with
        | nil => simp [hitems] at hone
        | cons e es =>
          rw [hitems] at hd
          simp only [List.get?_cons_zero, Option.some.injEq] at hd
          simp [hd]
      rw [hhead]
      exact hv
    refine ⟨v :: vs, by simp [hlen], ?_, ?_⟩
    · simp only [List.map_cons, hmap, hg, Option.some_bind, hview]
    have hstep : populateLoop fmt props (i :: (is ++ rest)) views
        = populateLoop fmt props (is ++ rest) (views ++ [v]) := by
      have hinfo : GetInfo props i = .ok (g.name, g.type, g.items.length) := by
        unfold GetInfo
        rw [hg]
      have hdata : FindData props g.name g.type 0 = .ok d := by
        unfold FindData
        rw [hfind]
        simp only [ne_eq, not_true_eq_false, and_false, if_false]
        rw [hd]
      conv_lhs => unfold populateLoop
      rw [hinfo]
      simp only [hone, ne_eq, not_true_eq_false, if_false]
      rw [hdata]
      simp only [hv]
    · rw [List.cons_append, hstep, hvs]
      simp

/-- C8 (as stated, refuted): in the message whose field "A" holds one value and whose
later field "Tags" holds two, `Populate` returns `B_ERROR` with an alert naming "Tags",
but the view for "A" has already been added to the form. -/
theorem Populate_views_before_error :
    (∃ f ∈ messageTags, 1 < f.items.length) ∧
    Populate sampleFloatText messageTags []
      = some ⟨B_ERROR, [⟨"A_container", .BTextControl "A" "x"⟩],
          some ⟨"Error setting up view",
            "Could not process message data Tags\nMultiple items per field not supported."⟩⟩ ∧
    ¬ ∀ props : BMessage, (∃ f ∈ props, 1 < f.items.length) →
        ∃ r, Populate sampleFloatText props [] = some r ∧ r.status = B_ERROR ∧ r.views = [] := by
  have heval : Populate sampleFloatText messageTags []
      = some ⟨B_ERROR, [⟨"A_container", .BTextControl "A" "x"⟩],
          some ⟨"Error setting up view",
            "Could not process message data Tags\nMultiple items per field not supported."⟩⟩ := by
    decide
  have hex : ∃ f ∈ messageTags, 1 < f.items.length := by decide
  refine ⟨hex, heval, ?_⟩
  intro hall
  obtain ⟨r, hr, _, hviews⟩ := hall messageTags hex
  rw [heval] at hr
  simp only [Option.some.injEq] at hr
  rw [← hr] at hviews
  simp at hviews

theorem range_map_get (α β : Type) (l : List α) (g : Option α → β) :
    (List.range l.length).map (fun i => g (l.get? i)) = l.map (fun a => g (some a)) := by
  apply List.ext_getElem
  · simp
  · intro i h1 h2
    have hi : i < l.length := by simpa using h2
    simp [List.getElem?_eq_getElem hi]

/-- C8 (amended): for every attribute message with unique names, if `f` is the first
field whose number of values is not 1 (every field before it holds exactly one value),
`Populate` on an empty form returns `B_ERROR` with the alert
"Could not process message data <name of f>\nMultiple items per field not supported.";
at that point the form holds exactly the views of the fields before `f`, one each and in
field order (the view `CreateDataView` builds from the field's name, type and value), and
no view for `f` or for any field after it; so it holds no view at all when `f` is the
first field. -/
theorem Populate_multiple_items (fmt : FloatText) (before after : List Field) (f : Field)
    (hnd : ((before ++ f :: after).map Field.name).Nodup)
    (hbefore : ∀ g ∈ before, g.items.length = 1) (hf : f.items.length ≠ 1) :
    ∃ views : List DataView,
      Populate fmt (before ++ f :: after) []
        = some ⟨B_ERROR, views, some ⟨"Error setting up view",
            "Could not process message data " ++ f.name ++
              "\nMultiple items per field not supported."⟩⟩ ∧
      views.map some = before.map (fieldView fmt) ∧
      views.length = before.length ∧
      (before = [] → views = []) := by
  have hidx : ∀ i ∈ List.range before.length,
      ∃ g, (before ++ f :: after).get? i = some g ∧ g.items.length = 1 := by
    intro i hi
    have hlt : i < before.length := by simpa using hi
    refine ⟨before[i], ?_, hbefore _ (List.getElem_mem _)⟩
    rw [List.get?_eq_getElem?, List.getElem?_append_left hlt]
    exact List.getElem?_eq_getElem hlt
  have hrange : List.range (CountNames (before ++ f :: after))
      = List.range before.length
        ++ before.length :: ((List.range after.length).map Nat.succ).map (before.length + ·) := by
    have : CountNames (before ++ f :: after) = before.length + (after.length + 1) := by
      simp [CountNames]
    rw [this, List.range_add, List.range_succ_eq_map]
    simp
  obtain ⟨vs, hlen, hmap, hvs⟩ := populateLoop_single fmt (before ++ f :: after) hnd
    (List.range before.length)
    (before.length :: ((List.range after.length).map Nat.succ).map (before.length + ·)) [] hidx
  have hlen2 : vs.length = before.length := by simpa using hlen
  have hviews : vs.map some = before.map (fieldView fmt) := by
    rw [hmap]
    have hcongr : (List.range before.length).map
          (fun i => ((before ++ f :: after).get? i).bind (fieldView fmt))
        = (List.range before.length).map (fun i => (before.get? i).bind (fieldView fmt)) := by
      apply List.map_congr_left
      intro i hi
      have hlt : i < before.length := by simpa using hi
      rw [List.get?_eq_getElem?, List.get?_eq_getElem?, List.getElem?_append_left hlt]
    rw [hcongr]
    have := range_map_get Field (Option DataView) before (fun o => o.bind (fieldView fmt))
    simpa using this
  refine ⟨vs, ?_, hviews, hlen2, ?_⟩
  · have hget : (before ++ f :: after).get? before.length = some f := by
      rw [List.get?_eq_getElem?, List.getElem?_append_right (Nat.le_refl _)]
      simp
    have hinfo : GetInfo (before ++ f :: after) before.length
        = .ok (f.name, f.type, f.items.length) := by
      unfold GetInfo
      rw [hget]
    unfold Populate
    rw [hrange, hvs]
    conv_lhs => unfold populateLoop
    rw [hinfo]
    simp [hf]
  · intro hnil
    rw [hnil] at hlen2
    exact List.length_eq_zero.mp hlen2

theorem Populate_multiple_items_witness :
    ((([fieldA] ++ fieldTags :: [fieldNote]).map Field.name).Nodup ∧
      (∀ g ∈ [fieldA], g.items.length = 1) ∧ fieldTags.items.length ≠ 1) ∧
    ∃ views : List DataView,
      Populate sampleFloatText ([fieldA] ++ fieldTags :: [fieldNote]) []
        = some ⟨B_ERROR, views, some ⟨"Error setting up view",
            "Could not process message data " ++ fieldTags.name ++
              "\nMultiple items per field not supported."⟩⟩ ∧
      views.map some = [fieldA].map (fieldView sampleFloatText) ∧
      views.length = [fieldA].length ∧
      ([fieldA] = [] → views = []) :=
  ⟨⟨by decide, by decide, by decide⟩,
    Populate_multiple_items sampleFloatText [fieldA] [fieldNote] fieldTags (by decide)
      (by decide) (by decide)⟩

end Shio

